import Mathlib

/-
Verification of the binary packet extraction engine of
src/cpap_extraction.py: delimiter-based stream framing (read_packet and
the packetization loop of __main__), schema-driven positional field
decoding (extract_packet and the pre-defined field schemas), and
millisecond-epoch timestamp conversion (convert_unix_time).

Byte streams are embedded as `List Nat` (one entry per byte, values
0..255), read front to back: a Python file object whose remaining
contents are `s` is the list `s`, `data_file.read(1)` inspects the head,
and `seek`/`read(n)` sequences that net-advance the position by `k`
bytes correspond to `List.drop k`.  Python exceptions are embedded with
`Except`; `PyErr` names the exception classes that the embedded code can
raise.  Python `bytearray` mutation (`del packet[:n]`) is embedded by
returning the remaining bytes alongside the result, and on an exception
by attaching the byte state at raise time to the error.
-/

/-- Exception classes raised by the embedded code: `indexError` for
`delimeter[0]` on an empty bytes object, `structError` for
`struct.unpack` on a buffer shorter than the format requires, and
`valueError` for `datetime.utcfromtimestamp` on an out-of-range
timestamp. -/
inductive PyErr where
  | indexError
  | structError
  | valueError
deriving DecidableEq, Repr

deriving instance DecidableEq for Except

/-- The `while True` loop of `read_packet` (src/cpap_extraction.py lines
412-421), for a non-empty delimiter whose first byte is `d0`.  State:
`s` is the unread remainder of the file and `acc` is the accumulated
`packet`.  One loop iteration:

* `byte = data_file.read(1)` reads the head of `s`; if `s` is empty the
  read returns `b''` and the loop breaks, returning the packet;
* if the byte equals `delimeter[0]`, the code seeks back one byte and
  reads `len(delimeter)` bytes (`List.take d.length s`); if they equal
  the delimiter the loop breaks with the packet ending before the
  delimiter; otherwise execution falls through to `packet += byte` and
  the next read happens `len(delimeter)` bytes further on
  (`List.drop d.length s`) — the file position is NOT restored after a
  failed delimiter comparison;
* otherwise `packet += byte` and the next read is at the next byte.

`fuel` counts remaining loop iterations; every iteration that recurses
consumes at least one byte of `s`, so the `s.length + 1` supplied by
`read_packet` is never exhausted and the `fuel = 0` case is unreachable
from `read_packet`. -/
def readPacketAux (d0 : Nat) (d : List Nat) : Nat → List Nat → List Nat → List Nat × List Nat
  | 0, s, acc => (acc, s)
  | _ + 1, [], acc => (acc, [])
  | fuel + 1, b :: t, acc =>
    if b = d0 then
      if List.take d.length (b :: t) = d then
        (acc, List.drop d.length (b :: t))
      else
        readPacketAux d0 d fuel (List.drop d.length (b :: t)) (acc ++ [b])
    else
      readPacketAux d0 d fuel t (acc ++ [b])

/-- `read_packet(data_file, delimeter)` (src/cpap_extraction.py lines
376-423) on a file whose unread contents are `s`.  Returns the packet
together with the unread remainder of the file.  For an empty delimiter
the first loop iteration evaluates `delimeter[0]`, which raises
`IndexError` on an empty bytes object before any byte is appended. -/
def read_packet (s : List Nat) (d : List Nat) : Except PyErr (List Nat × List Nat) :=
  match d with
  | [] => Except.error PyErr.indexError
  | d0 :: rest => Except.ok (readPacketAux d0 (d0 :: rest) (s.length + 1) s [])

/-- The packetization loop of `__main__` (src/cpap_extraction.py lines
613-618): repeatedly call `read_packet` and collect the results in
`packets`, stopping at the first empty packet.  Each `read_packet` call
runs its own loop with its own sufficient fuel (`s.length + 1` for the
current remainder `s`).  The outer `fuel` bounds the number of
`read_packet` calls; each call that appends a (necessarily non-empty)
packet consumes at least one byte of `s`, so the `s.length + 1` supplied
by `split` is never exhausted. -/
def read_packetsAux (d0 : Nat) (d : List Nat) : Nat → List Nat → List (List Nat) → List (List Nat)
  | 0, _, acc => acc
  | fuel + 1, s, acc =>
    let r := readPacketAux d0 d (s.length + 1) s []
    if r.1 = [] then acc else read_packetsAux d0 d fuel r.2 (acc ++ [r.1])

/-- The packetizer contract `split(stream, delimiter)`: the full ordered
list of packets produced by the `__main__` loop.  As in `read_packet`,
an empty delimiter raises `IndexError` inside the first `read_packet`
call. -/
def split (s : List Nat) (d : List Nat) : Except PyErr (List (List Nat)) :=
  match d with
  | [] => Except.error PyErr.indexError
  | d0 :: rest => Except.ok (read_packetsAux d0 (d0 :: rest) (s.length + 1) s [])

/-- Concatenation of packets with the delimiter `d` reinserted between
consecutive packets — the reconstruction operation of the framing
round-trip law. -/
def joinWith (d : List Nat) : List (List Nat) → List Nat
  | [] => []
  | [p] => p
  | p :: ps => p ++ d ++ joinWith d ps

/-- The C type tags accepted by `struct.unpack` format strings in the
source (the keys of the module-level `C_Types` dictionary,
src/cpap_extraction.py lines 582-594). -/
inductive CType where
  | c | b | B | h | H | i | I | l | L | q | Q | f | d
deriving DecidableEq, Repr

/-- The module-level `C_Types` dictionary (src/cpap_extraction.py lines
582-594): the byte width of each C type tag under `struct`'s standard
sizes (which apply because every format string is prefixed with `<`). -/
def C_Types : CType → Nat
  | .c => 1
  | .b => 1
  | .B => 1
  | .h => 2
  | .H => 2
  | .i => 4
  | .I => 4
  | .l => 4
  | .L => 4
  | .q => 8
  | .Q => 8
  | .f => 4
  | .d => 8

/-- Little-endian base-256 value of a byte list, as `struct.unpack` with
a `<`-prefixed unsigned format computes it. -/
def leNat : List Nat → Nat
  | [] => 0
  | byte :: rest => byte + 256 * leNat rest

/-- Little-endian two's-complement value of a byte list, as
`struct.unpack` with a `<`-prefixed signed format computes it. -/
def leInt (bs : List Nat) : Int :=
  if 2 * leNat bs < 2 ^ (8 * bs.length) then (leNat bs : Int)
  else (leNat bs : Int) - 2 ^ (8 * bs.length)

/-- A scalar produced by `struct.unpack` on one field: an integer for
the integral type tags, or the raw little-endian bit pattern for the
IEEE-754 tags `f`/`d` (the bits are decoded exactly as stored; their
floating-point reading is not interpreted further).  The 1-byte `c` tag,
which Python returns as a length-1 bytes object, is carried as the byte
value. -/
inductive PyValue where
  | int (n : Int)
  | float (bits : Nat)
deriving DecidableEq, Repr

/-- One `struct.unpack('<' + C_Type, bytes)` call on exactly the bytes
of one field. -/
def unpack (t : CType) (bs : List Nat) : PyValue :=
  match t with
  | .c | .B | .H | .I | .L | .Q => .int (leNat bs)
  | .b | .h | .i | .l | .q => .int (leInt bs)
  | .f | .d => .float (leNat bs)

/-- `extract_packet(packet, fields)` (src/cpap_extraction.py lines
426-499).  For each schema entry in order: take
`number_of_bytes = C_Types[C_Type]` bytes off the front of `packet`,
delete them from `packet` (`del packet[:number_of_bytes]` runs BEFORE
the unpack), then `struct.unpack` them; `struct.unpack` raises
`struct.error` when the buffer is shorter than the format requires.
The mutated `packet` is part of the result: on success the leftover
bytes are returned next to the decoded data, and on an exception the
error carries the byte state of `packet` at raise time.  The decoded
field is embedded as a (name, value) pair, abstracting the
`'{}: {}\n'.format(...)` string the source builds from exactly these
two components. -/
def extract_packet : List Nat → List (String × CType) →
    Except (PyErr × List Nat) (List (String × PyValue) × List Nat)
  | packet, [] => Except.ok ([], packet)
  | packet, (name, t) :: fields =>
    let n := C_Types t
    let bytes := List.take n packet
    let rest := List.drop n packet
    if bytes.length = n then
      match extract_packet rest fields with
      | Except.ok (data, final) => Except.ok ((name, unpack t bytes) :: data, final)
      | Except.error e => Except.error e
    else
      Except.error (PyErr.structError, rest)

/-- The pure schema-application function: one decoded field per schema
entry, in schema order, each read little-endian from its own byte slice
of the packet.  Used to state what a successful `extract_packet` run
returns. -/
def decodeFields : List Nat → List (String × CType) → List (String × PyValue)
  | _, [] => []
  | packet, (name, t) :: fields =>
    (name, unpack t (List.take (C_Types t) packet)) ::
      decodeFields (List.drop (C_Types t) packet) fields

/-- Total number of bytes a schema consumes: the sum of its fields'
declared widths. -/
def sumWidths : List (String × CType) → Nat
  | [] => 0
  | f :: fields => C_Types f.2 + sumWidths fields

/-- The schema of the canonical `extract_packet` unit test
(src/test_cpap_extraction.py, TestExtractPacket.test_normal). -/
def test_fields : List (String × CType) :=
  [("Test unsigned short", .H),
   ("Test unsigned int", .I),
   ("Test unsigned long", .L),
   ("Test unsigned long long", .Q)]

/-- The input bytes of the canonical `extract_packet` unit test:
2a00 c3010000 c907cc00 aaaa421acd794009. -/
def test_packet : List Nat :=
  [0x2a, 0x00, 0xc3, 0x01, 0x00, 0x00, 0xc9, 0x07, 0xcc, 0x00,
   0xaa, 0xaa, 0x42, 0x1a, 0xcd, 0x79, 0x40, 0x09]

/-- The `fields` dictionary of `extract_header_packet`
(src/cpap_extraction.py lines 153-163), in its insertion order (Python
dictionaries preserve insertion order).  Each entry's type tag is the
letter of its `'<X'` format string; the widths in the source tuples
agree with `C_Types`. -/
def header_fields : List (String × CType) :=
  [("Magic number", .I),
   ("File version", .H),
   ("File type data", .H),
   ("Machine ID", .I),
   ("Session ID", .I),
   ("Start time (UNIX time)", .q),
   ("End time (UNIX time)", .q),
   ("Compressed", .H),
   ("Data size", .I),
   ("crc", .H),
   ("mcsize", .I)]

/-- The `fields` dictionary of `extract_Sp02_data`
(src/cpap_extraction.py lines 310-324), in its insertion order. -/
def sp02_fields : List (String × CType) :=
  [("Magic number", .I),
   ("File version", .H),
   ("File type data", .H),
   ("Machine ID", .I),
   ("Session ID", .I),
   ("First start time", .q),
   ("First end time", .q),
   ("Compression", .H),
   ("Machine type", .H),
   ("Data size", .I),
   ("crc", .H),
   ("Number of data streams", .H),
   ("Event size", .H),
   ("Key1", .H),
   ("Exist Sp02 sessions", .H)]

/-- Modelled from the spec: the type-tag sequence of the claimed
12-field header schema — magic number uint32, file version uint16, file
type data uint16, machine ID uint32, session ID uint32, start time
int64/uint64, end time int64/uint64, compression flag uint16, machine
type uint16, data size uint32, CRC uint16, stream count uint16.  The
spec writes "int64/uint64" for the two time fields; the signed variant
is taken here, matching the `'<q'` the code uses for every time field. -/
def specHeaderTypes : List CType :=
  [.I, .H, .H, .I, .I, .q, .q, .H, .H, .I, .H, .H]

/-- A calendar date-time as `datetime.utcfromtimestamp(...)` holds it:
proleptic Gregorian calendar, UTC. -/
structure DateTime where
  year : Int
  month : Nat
  day : Nat
  hour : Nat
  minute : Nat
  second : Nat
deriving DecidableEq, Repr

/-- Days-since-epoch (1970-01-01) to proleptic Gregorian
(year, month, day), the standard civil-from-days computation used to
model CPython's `datetime` date arithmetic. -/
def civilFromDays (z0 : Int) : Int × Nat × Nat :=
  let z := z0 + 719468
  let era := z.ediv 146097
  let doe := (z.emod 146097).toNat
  let yoe := (doe - doe / 1460 + doe / 36524 - doe / 146096) / 365
  let y := (yoe : Int) + era * 400
  let doy := doe - (365 * yoe + yoe / 4 - yoe / 100)
  let mp := (5 * doy + 2) / 153
  let d := doy - (153 * mp + 2) / 5 + 1
  let m := if mp < 10 then mp + 3 else mp - 9
  (y + (if m ≤ 2 then 1 else 0), m, d)

/-- The smallest timestamp `datetime.utcfromtimestamp` accepts:
0001-01-01 00:00:00 (`datetime.min`). -/
def DATETIME_MIN : Int := -62135596800

/-- The largest whole-second timestamp `datetime.utcfromtimestamp`
accepts: 9999-12-31 23:59:59 (`datetime.max`). -/
def DATETIME_MAX : Int := 253402300799

/-- CPython's `datetime.utcfromtimestamp` on an integer timestamp:
raises `ValueError` when the resulting year would fall outside 1..9999
(CPython computes the date with its own calendar arithmetic, so the
bounds are exactly `datetime.min`/`datetime.max`), and otherwise
converts to a UTC calendar date-time. -/
def utcfromtimestamp (t : Int) : Except PyErr DateTime :=
  if t < DATETIME_MIN ∨ DATETIME_MAX < t then Except.error PyErr.valueError
  else
    let days := t.ediv 86400
    let sod := (t.emod 86400).toNat
    let ymd := civilFromDays days
    Except.ok ⟨ymd.1, ymd.2.1, ymd.2.2, sod / 3600, sod % 3600 / 60, sod % 60⟩

/-- Zero-padding to two digits, as `strftime` pads `%m %d %H %M %S`. -/
def pad2 (n : Nat) : String :=
  if n < 10 then "0" ++ toString n else toString n

/-- Zero-padding of the year to four digits (every year reachable
through `utcfromtimestamp` in the claims is ≥ 1000, where `%Y` is just
the digits). -/
def pad4 (n : Int) : String :=
  if n < 10 then "000" ++ toString n
  else if n < 100 then "00" ++ toString n
  else if n < 1000 then "0" ++ toString n
  else toString n

/-- `strftime('%Y-%m-%d %H:%M:%S')`. -/
def formatDateTime (dt : DateTime) : String :=
  pad4 dt.year ++ "-" ++ pad2 dt.month ++ "-" ++ pad2 dt.day ++ " " ++
    pad2 dt.hour ++ ":" ++ pad2 dt.minute ++ ":" ++ pad2 dt.second

/-- The inputs `convert_unix_time` is modelled on: Python integers and
strings.  A string stands for the non-numeric inputs: `'test' / 1000`
raises `TypeError`, which the source catches.  (Python floats are
outside the model; the claims' inputs are integers and strings.) -/
inductive PyInput where
  | int (n : Int)
  | str (s : String)
deriving DecidableEq, Repr

/-- The two `warnings.warn` calls in `convert_unix_time`: the
"evaluated to 0" warning and the "beyond the year 2038" warning. -/
inductive PyWarning where
  | nonpositiveTime
  | year2038
deriving DecidableEq, Repr

/-- `convert_unix_time(unixtime)` (src/cpap_extraction.py lines
502-531), returning the warnings it emits alongside its result.

* `unixtime = int(unixtime / 1000)`: for a string input the division
  raises `TypeError`, which the `except TypeError` arm turns into the
  in-band string `'ERROR: {} is invalid'`.  For an integer input the
  float division followed by `int(...)` equals division by 1000
  truncated toward zero (`Int.tdiv`); this is exact for every input
  whose quotient has magnitude below 2^52 and in particular for every
  input used in the theorems below — IEEE rounding of the float quotient
  can only diverge from truncation for inputs whose quotient is far
  outside `datetime`'s range.
* `if unixtime <= 0` (the REASSIGNED seconds value) warns;
  `if unixtime >= 2147483647` warns.  Neither warning aborts.
* `datetime.utcfromtimestamp(unixtime)` then formats; for out-of-range
  seconds it raises `ValueError`, which nothing catches. -/
def convert_unix_time (unixtime : PyInput) : List PyWarning × Except PyErr String :=
  match unixtime with
  | .str s => ([], Except.ok ("ERROR: " ++ s ++ " is invalid"))
  | .int x =>
    let sec := Int.tdiv x 1000
    let w1 : List PyWarning := if sec ≤ 0 then [.nonpositiveTime] else []
    let w2 : List PyWarning := if 2147483647 ≤ sec then [.year2038] else []
    match utcfromtimestamp sec with
    | Except.ok dt => (w1 ++ w2, Except.ok (formatDateTime dt))
    | Except.error e => (w1 ++ w2, Except.error e)

/-- Whether `convert_unix_time` reaches a successful `utcfromtimestamp`
call on this input: every string does (the `TypeError` arm returns
first), and an integer does exactly when its truncated seconds lie in
`datetime`'s range. -/
def inDatetimeRange : PyInput → Bool
  | .str _ => true
  | .int x => decide (DATETIME_MIN ≤ Int.tdiv x 1000 ∧ Int.tdiv x 1000 ≤ DATETIME_MAX)

/-- The read_packet loop on an exhausted stream returns the accumulated
packet unchanged, whatever fuel remains. -/
theorem readPacketAux_nil (d0 : Nat) (d : List Nat) (fuel : Nat) (acc : List Nat) :
    readPacketAux d0 d fuel [] acc = (acc, []) := by
  cases fuel <;> rfl

/-- Scanning a block of bytes none of which equals the delimiter's first
byte appends the whole block to the packet, consuming one fuel unit per
byte. -/
theorem readPacketAux_skip (d0 : Nat) (d : List Nat) (p : List Nat) (hp : d0 ∉ p) :
    ∀ (fuel : Nat) (s acc : List Nat), p.length + s.length < fuel →
      readPacketAux d0 d fuel (p ++ s) acc =
        readPacketAux d0 d (fuel - p.length) s (acc ++ p) := by
  induction p with
  | nil => intro fuel s acc h; simp
  | cons b p ih =>
    intro fuel s acc h
    simp only [List.mem_cons, not_or] at hp
    cases fuel with
    | zero => omega
    | succ fuel =>
      rw [List.cons_append]
      simp only [readPacketAux]
      rw [if_neg (fun hbd => hp.1 hbd.symm)]
      rw [ih hp.2 fuel s (acc ++ [b]) (by simp at h ⊢; omega)]
      simp [Nat.succ_sub_succ]

/-- Scanning from an exact delimiter occurrence terminates the packet:
the delimiter is consumed and excluded, and scanning is left at the
byte after it. -/
theorem readPacketAux_delim (d0 : Nat) (d' : List Nat) (fuel : Nat) (s acc : List Nat) :
    readPacketAux d0 (d0 :: d') (fuel + 1) ((d0 :: d') ++ s) acc = (acc, s) := by
  have h1 : List.take (d0 :: d').length ((d0 :: d') ++ s) = d0 :: d' :=
    List.take_left (d0 :: d') s
  have h2 : List.drop (d0 :: d').length ((d0 :: d') ++ s) = s :=
    List.drop_left (d0 :: d') s
  rw [List.cons_append]
  simp only [readPacketAux, if_pos rfl]
  rw [← List.cons_append]
  simp [h1, h2]

/-- The packetization loop on an exhausted stream stops at once. -/
theorem read_packetsAux_empty (d0 : Nat) (d : List Nat) (fuel : Nat) (acc : List (List Nat)) :
    read_packetsAux d0 d fuel [] acc = acc := by
  cases fuel with
  | zero => rfl
  | succ fuel => simp [read_packetsAux, readPacketAux_nil]

/-- The packetization loop applied to non-empty packets joined by the
delimiter, none containing the delimiter's first byte, recovers exactly
those packets. -/
theorem read_packetsAux_join (d0 : Nat) (d' : List Nat) (ps : List (List Nat))
    (hps : ∀ p ∈ ps, p ≠ [] ∧ d0 ∉ p) :
    ∀ (fuel : Nat) (acc : List (List Nat)), (joinWith (d0 :: d') ps).length < fuel →
      read_packetsAux d0 (d0 :: d') fuel (joinWith (d0 :: d') ps) acc = acc ++ ps := by
  induction ps with
  | nil =>
    intro fuel acc h
    simp [joinWith, read_packetsAux_empty]
  | cons p ps ih =>
    cases ps with
    | nil =>
      intro fuel acc h
      obtain ⟨hp1, hp2⟩ := hps p (by simp)
      cases fuel with
      | zero => omega
      | succ fuel =>
        simp only [joinWith] at h ⊢
        simp only [read_packetsAux]
        have hr : readPacketAux d0 (d0 :: d') (p.length + 1) p [] = (p, []) := by
          have := readPacketAux_skip d0 (d0 :: d') p hp2 (p.length + 1) [] []
            (by simp)
          rw [List.append_nil] at this
          rw [this, Nat.add_sub_cancel_left, readPacketAux_nil]
          simp
        rw [hr]
        simp only [if_neg hp1]
        rw [read_packetsAux_empty]
    | cons q rest =>
      intro fuel acc h
      have hpmem := hps p (by simp)
      cases fuel with
      | zero => omega
      | succ fuel =>
        have hjoin : joinWith (d0 :: d') (p :: q :: rest) =
            p ++ ((d0 :: d') ++ joinWith (d0 :: d') (q :: rest)) := by
          simp [joinWith, List.append_assoc]
        rw [hjoin] at h ⊢
        simp only [read_packetsAux]
        have hr : readPacketAux d0 (d0 :: d')
            ((p ++ ((d0 :: d') ++ joinWith (d0 :: d') (q :: rest))).length + 1)
            (p ++ ((d0 :: d') ++ joinWith (d0 :: d') (q :: rest))) []
            = (p, joinWith (d0 :: d') (q :: rest)) := by
          rw [readPacketAux_skip d0 (d0 :: d') p hpmem.2 _ _ [] (by simp)]
          have hfuel : (p ++ ((d0 :: d') ++ joinWith (d0 :: d') (q :: rest))).length + 1 - p.length
              = ((d'.length + (joinWith (d0 :: d') (q :: rest)).length + 1) + 1) := by
            simp; omega
          rw [hfuel, readPacketAux_delim]
          simp
        rw [hr]
        simp only [if_neg hpmem.1]
        rw [ih (fun x hx => hps x (by simp [hx])) fuel (acc ++ [p]) (by simp at h ⊢; omega)]
        simp

/-- A successful schema application consumes exactly the schema's total
width off the front of the packet and returns the positional decode. -/
theorem extract_packet_ok (packet : List Nat) (fields : List (String × CType))
    (h : sumWidths fields ≤ packet.length) :
    extract_packet packet fields =
      Except.ok (decodeFields packet fields, packet.drop (sumWidths fields)) := by
  induction fields generalizing packet with
  | nil => simp [extract_packet, decodeFields, sumWidths]
  | cons f fields ih =>
    obtain ⟨name, t⟩ := f
    simp only [sumWidths] at h
    have hn : C_Types t ≤ packet.length := by omega
    simp only [extract_packet, decodeFields]
    rw [if_pos (by simp [List.length_take]; omega)]
    rw [ih (packet.drop (C_Types t)) (by simp [List.length_drop]; omega)]
    simp [sumWidths, List.drop_drop, Nat.add_comm]

/-- When the packet is shorter than the schema's total width, the decode
raises `struct.error` with the packet already emptied: the earlier
fields' bytes and the final short take have all been deleted before the
failing unpack runs. -/
theorem extract_packet_truncated (packet : List Nat) (fields : List (String × CType))
    (h : packet.length < sumWidths fields) :
    extract_packet packet fields = Except.error (PyErr.structError, []) := by
  induction fields generalizing packet with
  | nil => simp [sumWidths] at h
  | cons f fields ih =>
    obtain ⟨name, t⟩ := f
    simp only [sumWidths] at h
    simp only [extract_packet]
    by_cases hn : C_Types t ≤ packet.length
    · rw [if_pos (by simp [List.length_take]; omega)]
      rw [ih (packet.drop (C_Types t)) (by simp [List.length_drop]; omega)]
    · rw [if_neg (by simp [List.length_take]; omega)]
      rw [List.drop_eq_nil_of_le (by omega)]

/-- The positional decode carries the schema's field names in schema
order. -/
theorem decodeFields_names (packet : List Nat) (fields : List (String × CType)) :
    (decodeFields packet fields).map Prod.fst = fields.map Prod.fst := by
  induction fields generalizing packet with
  | nil => rfl
  | cons f fields ih => obtain ⟨name, t⟩ := f; simp [decodeFields, ih]

/-- A schema prefix consumes no more bytes than the whole schema. -/
theorem sumWidths_take_le (fields : List (String × CType)) (k : Nat) :
    sumWidths (fields.take k) ≤ sumWidths fields := by
  induction fields generalizing k with
  | nil => simp [List.take_nil]
  | cons f fields ih =>
    cases k with
    | zero => simp [sumWidths]
    | succ k => simp only [List.take_succ_cons, sumWidths]; have := ih k; omega

/-- A timestamp within `datetime`'s range converts without raising. -/
theorem utcfromtimestamp_ok (t : Int) (h : DATETIME_MIN ≤ t ∧ t ≤ DATETIME_MAX) :
    ∃ dt, utcfromtimestamp t = Except.ok dt := by
  simp only [utcfromtimestamp]
  rw [if_neg (by simp only [not_or, not_lt]; exact ⟨h.1, h.2⟩)]
  exact ⟨_, rfl⟩

/-- An integer input whose truncated seconds lie within `datetime`'s
range comes back from `convert_unix_time` as the formatted conversion of
those seconds. -/
theorem convert_int_ok (x : Int)
    (h : DATETIME_MIN ≤ Int.tdiv x 1000 ∧ Int.tdiv x 1000 ≤ DATETIME_MAX) :
    ∃ dt, utcfromtimestamp (Int.tdiv x 1000) = Except.ok dt ∧
      (convert_unix_time (PyInput.int x)).2 = Except.ok (formatDateTime dt) := by
  obtain ⟨dt, hdt⟩ := utcfromtimestamp_ok (Int.tdiv x 1000) h
  exact ⟨dt, hdt, by simp only [convert_unix_time, hdt]⟩

/-- C1 (amended): the framing round-trip law holds on the restricted
domain the code supports.  If a byte sequence is formed by joining
finitely many packets — each non-empty and containing no byte equal to
the delimiter's first byte — with the delimiter between consecutive
packets, then `split` returns exactly those packets, and concatenating
them with the delimiter reinserted between consecutive packets
reconstructs the original sequence.  (The unrestricted law of the claim
is refuted by `C1_counterexample`.) -/
theorem C1_framing_roundtrip (d0 : Nat) (d' : List Nat) (ps : List (List Nat))
    (hps : ∀ p ∈ ps, p ≠ [] ∧ d0 ∉ p) :
    ∃ packets, split (joinWith (d0 :: d') ps) (d0 :: d') = Except.ok packets ∧
      joinWith (d0 :: d') packets = joinWith (d0 :: d') ps := by
  refine ⟨ps, ?_, rfl⟩
  simp only [split]
  rw [read_packetsAux_join d0 d' ps hps _ [] (Nat.lt_succ_self _)]
  rfl

/-- C1 witness: the round-trip at the delimiter 0xff 0xff 0xff 0xff and
the packets 0x34 0x32 and 0x42 of the repository's unit tests. -/
theorem C1_framing_roundtrip_witness :
    (∀ p ∈ [[52, 50], [66]], p ≠ ([] : List Nat) ∧ 255 ∉ p) ∧
    (∃ packets, split (joinWith (255 :: [255, 255, 255]) [[52, 50], [66]])
        (255 :: [255, 255, 255]) = Except.ok packets ∧
      joinWith (255 :: [255, 255, 255]) packets =
        joinWith (255 :: [255, 255, 255]) [[52, 50], [66]]) :=
  ⟨by decide, C1_framing_roundtrip 255 [255, 255, 255] [[52, 50], [66]] (by decide)⟩

/-- C1 counterexample: on the byte sequence that is exactly one
delimiter, `split` returns no packets (the first `read_packet` returns
an empty packet, which terminates the loop), so rejoining the packets
yields the empty sequence, not the original four delimiter bytes. -/
theorem C1_framing_counterexample :
    split [255, 255, 255, 255] [255, 255, 255, 255] = Except.ok [] ∧
    joinWith [255, 255, 255, 255] [] ≠ [255, 255, 255, 255] :=
  ⟨by decide, by decide⟩

/-- C2: evaluation of `read_packet` at the failing input.  On the stream
0xff 0x00 0x01 0x02 0x03 with delimiter 0xff 0xff 0xff 0xff, the first
byte matches the delimiter's first byte, the 4-byte lookahead fails,
and the code appends the 0xff but resumes reading 4 bytes further on:
the result is the packet 0xff 0x03, silently losing 0x00 0x01 0x02,
where the claim requires the packet 0xff 0x00 0x01 0x02 0x03 with no
byte lost. -/
theorem C2_lookahead_eval :
    read_packet [255, 0, 1, 2, 3] [255, 255, 255, 255] = Except.ok ([255, 3], []) := by
  decide

/-- C3: for every packet and schema whose total width fits in the
packet, `extract_packet` succeeds, consumes exactly the sum of the
schema's widths off the front of the packet, and produces the
positional little-endian decode: one field per schema entry, in schema
order, carrying the schema's names. -/
theorem C3_decode_exact (packet : List Nat) (fields : List (String × CType))
    (h : sumWidths fields ≤ packet.length) :
    extract_packet packet fields =
      Except.ok (decodeFields packet fields, packet.drop (sumWidths fields)) ∧
    (decodeFields packet fields).map Prod.fst = fields.map Prod.fst ∧
    (decodeFields packet fields).length = fields.length :=
  ⟨extract_packet_ok packet fields h, decodeFields_names packet fields, by
    have h1 := congrArg List.length (decodeFields_names packet fields)
    simpa using h1⟩

/-- C3 witness: the canonical unit test — the schema
{short:2, int:4, long:4, longlong:8} applied to
2a00 c3010000 c907cc00 aaaa421acd794009 yields 42, 451, 13371337 and
666666666666666666, consuming all 18 bytes. -/
theorem C3_decode_exact_witness :
    sumWidths test_fields ≤ test_packet.length ∧
    extract_packet test_packet test_fields = Except.ok
      ([("Test unsigned short", PyValue.int 42),
        ("Test unsigned int", PyValue.int 451),
        ("Test unsigned long", PyValue.int 13371337),
        ("Test unsigned long long", PyValue.int 666666666666666666)], []) := by
  refine ⟨by decide, ?_⟩
  rw [(C3_decode_exact test_packet test_fields (by decide)).1]
  decide

/-- C4: evaluation of the schemas against the claimed field list.  The
`fields` dictionary of `extract_header_packet` does NOT consist of the
claimed 12 fields: it has 11 entries, no machine-type field, and its
stream-count field `mcsize` is a uint32 — although the function's own
docstring documents machine_type as uint16 and mcsize as uint16, and
the first 12 fields of `extract_Sp02_data` carry exactly the claimed
type sequence. -/
theorem C4_header_schema_eval :
    header_fields.map Prod.snd ≠ specHeaderTypes ∧
    header_fields.length = 11 ∧
    (∀ f ∈ header_fields, f.1 ≠ "Machine type") ∧
    ("mcsize", CType.I) ∈ header_fields ∧
    C_Types CType.I = 4 ∧
    (sp02_fields.take 12).map Prod.snd = specHeaderTypes ∧
    sp02_fields.length = 15 := by
  decide

/-- C5: whenever some schema entry needs more bytes than remain before
it, `extract_packet` fails with the truncation error (`struct.error`);
it neither returns a partial record nor silently succeeds. -/
theorem C5_truncated_fails (packet : List Nat) (fields : List (String × CType))
    (h : ∃ i < fields.length, packet.length < sumWidths (fields.take (i + 1))) :
    ∃ state, extract_packet packet fields = Except.error (PyErr.structError, state) := by
  obtain ⟨i, _, hlt⟩ := h
  exact ⟨[], extract_packet_truncated packet fields
    (Nat.lt_of_lt_of_le hlt (sumWidths_take_le fields (i + 1)))⟩

/-- C5 witness: a 3-byte packet against the 18-byte test schema fails at
entry 1 (widths 2 + 4 > 3) with the truncation error. -/
theorem C5_truncated_fails_witness :
    (∃ i < test_fields.length, List.length [42, 0, 1] < sumWidths (test_fields.take (i + 1))) ∧
    ∃ state, extract_packet [42, 0, 1] test_fields = Except.error (PyErr.structError, state) :=
  ⟨⟨1, by decide, by decide⟩, C5_truncated_fails [42, 0, 1] test_fields ⟨1, by decide, by decide⟩⟩

/-- C6 (amended): `convert_unix_time` returns in-band for every string
input (the `ERROR: <input> is invalid` string) and for every integer
input whose truncated seconds lie within `datetime`'s range; but
integer inputs outside that range raise `ValueError` past the
function's boundary (see `C6_normalize_counterexample`), so the claimed
total exception safety fails. -/
theorem C6_normalize_inband (inp : PyInput) (h : inDatetimeRange inp = true) :
    ∃ out, (convert_unix_time inp).2 = Except.ok out ∧
      ∀ s, inp = PyInput.str s → out = "ERROR: " ++ s ++ " is invalid" := by
  cases inp with
  | str s => exact ⟨"ERROR: " ++ s ++ " is invalid", rfl, fun s' hs => by cases hs; rfl⟩
  | int x =>
    simp only [inDatetimeRange, decide_eq_true_eq] at h
    obtain ⟨dt, _, hdt⟩ := convert_int_ok x h
    exact ⟨formatDateTime dt, hdt, fun s hs => by exact absurd hs (by simp)⟩

/-- C6 counterexample: the numeric input 10^18 does not yield a
formatted date string — the uncaught `ValueError` from
`datetime.utcfromtimestamp(10^15)` escapes `convert_unix_time`,
refuting "every numeric input yields a formatted date string". -/
theorem C6_normalize_counterexample :
    (convert_unix_time (PyInput.int 1000000000000000000)).2 =
      Except.error PyErr.valueError := by
  decide

/-- C6 witness: the spec's own example — the string input `test` is
recovered locally as the in-band error string. -/
theorem C6_normalize_inband_witness : inDatetimeRange (PyInput.str "test") = true ∧
    (convert_unix_time (PyInput.str "test")).2 = Except.ok "ERROR: test is invalid" := by
  refine ⟨rfl, ?_⟩
  obtain ⟨out, h1, h2⟩ := C6_normalize_inband (PyInput.str "test") rfl
  rw [h1, h2 "test" rfl]
  rfl

/-- C7 (amended): for an integer input, `convert_unix_time` emits a
warning exactly when the truncated seconds `x tdiv 1000` are ≤ 0 —
which already happens for every raw millisecond input below 1000, not
only for inputs ≤ 0 as claimed (see `C7_warning_counterexample`) — or
≥ 2147483647 (equivalently, raw input ≥ 2147483647000); and in the
warning cases whose seconds lie within `datetime`'s range it still
computes and returns the formatted result. -/
theorem C7_warning_boundaries (x : Int) :
    ((convert_unix_time (PyInput.int x)).1 ≠ [] ↔
      (Int.tdiv x 1000 ≤ 0 ∨ 2147483647 ≤ Int.tdiv x 1000)) ∧
    (inDatetimeRange (PyInput.int x) = true →
      ∃ out, (convert_unix_time (PyInput.int x)).2 = Except.ok out) := by
  constructor
  · cases hu : utcfromtimestamp (Int.tdiv x 1000) with
    | error e =>
      simp only [convert_unix_time, hu]
      by_cases h1 : Int.tdiv x 1000 ≤ 0 <;>
        by_cases h2 : (2147483647 : Int) ≤ Int.tdiv x 1000 <;> simp [h1, h2]
    | ok dt =>
      simp only [convert_unix_time, hu]
      by_cases h1 : Int.tdiv x 1000 ≤ 0 <;>
        by_cases h2 : (2147483647 : Int) ≤ Int.tdiv x 1000 <;> simp [h1, h2]
  · intro h
    simp only [inDatetimeRange, decide_eq_true_eq] at h
    obtain ⟨dt, _, hdt⟩ := convert_int_ok x h
    exact ⟨formatDateTime dt, hdt⟩

/-- C7 counterexample: the raw millisecond input 500 lies strictly
between 0 and 2147483647000, yet the code warns (its truncated seconds
are 0), refuting "for raw millisecond values strictly between 0 and
2147483647000 no warning is emitted". -/
theorem C7_warning_counterexample :
    (convert_unix_time (PyInput.int 500)).1 = [PyWarning.nonpositiveTime] ∧
    (0 : Int) < 500 ∧ (500 : Int) < 2147483647000 := by
  decide

/-- C7 witness: at input 0 a warning is emitted and the formatted result
is still returned. -/
theorem C7_warning_boundaries_witness :
    (convert_unix_time (PyInput.int 0)).1 ≠ [] ∧
    ∃ out, (convert_unix_time (PyInput.int 0)).2 = Except.ok out :=
  ⟨(C7_warning_boundaries 0).1.mpr (by decide), (C7_warning_boundaries 0).2 (by decide)⟩

/-- C8 (amended): for every integer millisecond input whose quotient by
1000, truncated toward zero, lies within `datetime`'s range,
`convert_unix_time` divides by 1000 truncating toward zero, converts
the seconds to UTC and returns them formatted as YYYY-MM-DD HH:MM:SS,
discarding any sub-second remainder; inputs whose quotient falls
outside the range instead raise `ValueError`
(see `C8_truncation_counterexample`). -/
theorem C8_truncation_format (x : Int)
    (h : DATETIME_MIN ≤ Int.tdiv x 1000 ∧ Int.tdiv x 1000 ≤ DATETIME_MAX) :
    ∃ dt, utcfromtimestamp (Int.tdiv x 1000) = Except.ok dt ∧
      (convert_unix_time (PyInput.int x)).2 = Except.ok (formatDateTime dt) :=
  convert_int_ok x h

/-- C8 counterexample: the integer input 253402300800000 ms (one second
past `datetime.max`) is not divided-converted-formatted; the conversion
raises `ValueError`, refuting the claim's universal quantification over
every integer millisecond input. -/
theorem C8_truncation_counterexample :
    (convert_unix_time (PyInput.int 253402300800000)).2 =
      Except.error PyErr.valueError := by
  decide

/-- C8 witness: the spec's example — 842323380451 ms and 842323380000 ms
both format to 1996-09-10 02:43:00, the 451 ms remainder discarded. -/
theorem C8_truncation_format_witness :
    (convert_unix_time (PyInput.int 842323380451)).2 = Except.ok "1996-09-10 02:43:00" ∧
    (convert_unix_time (PyInput.int 842323380000)).2 = Except.ok "1996-09-10 02:43:00" := by
  refine ⟨?_, by decide⟩
  obtain ⟨dt, h1, h2⟩ := C8_truncation_format 842323380451 (by decide)
  have h3 : utcfromtimestamp (Int.tdiv 842323380451 1000) =
      Except.ok (⟨1996, 9, 10, 2, 43, 0⟩ : DateTime) := by decide
  rw [h1] at h3
  injection h3 with h4
  rw [h2, h4]
  decide

/-- C9: evaluation of `read_packet` and `split` at the unit test's
input with the empty delimiter.  The code evaluates `delimeter[0]` on
an empty bytes object and raises `IndexError` on the first loop
iteration, where the claim (and the repository's own
`test_empty_delimeter`) requires the whole stream returned as one
packet with a non-fatal warning. -/
theorem C9_empty_delimiter_eval :
    read_packet [52, 50, 255, 255, 255, 255, 66] [] = Except.error PyErr.indexError ∧
    split [52, 50, 255, 255, 255, 255, 66] [] = Except.error PyErr.indexError :=
  ⟨rfl, rfl⟩

/-- C10: a truncation failure is not atomic — by the time the
`struct.error` is raised, every byte of the earlier entries and the
whole short remainder taken for the failing entry have been deleted
from the packet, leaving it empty, so the caller cannot recover the
original packet from the failed decode. -/
theorem C10_mutation_on_failure (packet : List Nat) (fields : List (String × CType))
    (h : packet.length < sumWidths fields) :
    extract_packet packet fields = Except.error (PyErr.structError, []) :=
  extract_packet_truncated packet fields h

/-- C10 witness: a 3-byte packet against the 18-byte test schema is left
empty at the moment the truncation error is raised. -/
theorem C10_mutation_on_failure_witness :
    List.length [0x2a, 0x00, 0xc3] < sumWidths test_fields ∧
    extract_packet [0x2a, 0x00, 0xc3] test_fields = Except.error (PyErr.structError, []) :=
  ⟨by decide, C10_mutation_on_failure [0x2a, 0x00, 0xc3] test_fields (by decide)⟩
